import Mathlib

/-!
Verification of the Pickfair dutching calculation against its specification.

The embedding below translates, into Lean over `ℚ`:
  * the client-side stake calculation of `client/src/pages/dutching.tsx`
    (`bookPercentage`, `calculatedSelections`, `totalStake`);
  * the order construction of `server/betfair.ts` (`placeOrders`) and the
    market assembly of `getCorrectScoreMarket`;
  * the `placeBetsSchema` stake/price constraints of `server/routes.ts`.

JavaScript numbers are modelled as rationals; `parseFloat`-ed inputs are
taken as already-parsed rationals.  `Math.round` is `round` (both are
floor of `x + 1/2`).  The `x || d` JavaScript default is modelled by an
explicit match on the option plus a zero test where the code applies it
to a possibly-zero number.
-/

namespace Pickfair

/-- A market selection as produced by the server and held by the client
(`Selection` in `dutching.tsx`, with the `selected` flag the client adds). -/
structure Selection where
  selectionId : Int
  selectionName : String
  backPrice : ℚ
  layPrice : ℚ
  backSize : ℚ
  laySize : ℚ
  selected : Bool
  deriving DecidableEq, Repr, Inhabited

/-- The `betType` radio value: `"back" | "lay"`. -/
inductive BetType where
  | back
  | lay
  deriving DecidableEq, Repr, Inhabited

/-- The `calculationMode` radio value: `"stake" | "liability"`. -/
inductive CalcMode where
  | stake
  | liability
  deriving DecidableEq, Repr, Inhabited

/-- JavaScript Math.max of two arguments: the larger of the two. -/
def jsMax (a b : ℚ) : ℚ := if a ≤ b then b else a

/-- The price field the code reads for the chosen bet type
(`betType === "back" ? s.backPrice : s.layPrice`). -/
def chosenPrice : BetType → Selection → ℚ
  | .back, s => s.backPrice
  | .lay, s => s.layPrice

/-- The memo `selectedSelections = selections.filter(s => s.selected)`. -/
def selectedSelections (selections : List Selection) : List Selection :=
  selections.filter (fun s => s.selected)

/-- The `bookPercentage` memo of `dutching.tsx` lines 122-126: 0 when nothing is
selected, otherwise `Σ 100 / price` over the selected selections, where
`price` is the raw chosen-side price (no offset applied). -/
def bookPercentage (betType : BetType) (selections : List Selection) : ℚ :=
  if (selectedSelections selections).length = 0 then 0
  else (selectedSelections selections).foldl
    (fun sum s => sum + 100 / chosenPrice betType s) 0

/-- One row of `calculatedSelections`: the source selection together with
the fields the map at lines 134-166 adds. -/
structure CalcSelection where
  base : Selection
  calculatedStake : ℚ
  effectivePrice : ℚ
  potentialReturn : ℚ
  potentialLoss : ℚ
  fillPercentage : ℚ
  deriving DecidableEq, Repr, Inhabited

/-- Body of the `selectedSelections.map` at `dutching.tsx` lines 134-165.
`price` is the chosen-side price plus the offset; the stake formula is the
same expression in the `"stake"` branch and in both arms of the
`"liability"` branch; the row's `calculatedStake` is `Math.max(2, stake)`
while `potentialReturn`, `potentialLoss` and `fillPercentage` use the
unclamped `stake`. -/
def computeOne (betType : BetType) (calculationMode : CalcMode)
    (amount offsetValue bookPct : ℚ) (s : Selection) : CalcSelection :=
  let price : ℚ := chosenPrice betType s + offsetValue
  let stake : ℚ :=
    match calculationMode with
    | .stake => (amount * (100 / price)) / bookPct
    | .liability =>
      match betType with
      | .lay => (amount * (100 / price)) / bookPct
      | .back => (amount * (100 / price)) / bookPct
  let potentialReturn : ℚ :=
    match betType with
    | .back => stake * price
    | .lay => amount
  let potentialLoss : ℚ :=
    match betType with
    | .back => amount
    | .lay => stake * (price - 1)
  { base := s
    calculatedStake := jsMax 2 stake
    effectivePrice := price
    potentialReturn := potentialReturn
    potentialLoss := potentialLoss
    fillPercentage := if stake ≤ s.laySize then 100 else s.laySize / stake * 100 }

/-- The `calculatedSelections` memo of `dutching.tsx` lines 128-167: empty when
nothing is selected, otherwise the map of `computeOne` over the selected
selections with the shared `bookPercentage`. -/
def calculatedSelections (betType : BetType) (calculationMode : CalcMode)
    (amount offsetValue : ℚ) (selections : List Selection) : List CalcSelection :=
  if (selectedSelections selections).length = 0 then []
  else (selectedSelections selections).map
    (computeOne betType calculationMode amount offsetValue
      (bookPercentage betType selections))

/-- The `totalStake` memo of `dutching.tsx` lines 169-172: the fold of
`calculatedStake` over the calculated selections. -/
def totalStake (betType : BetType) (calculationMode : CalcMode)
    (amount offsetValue : ℚ) (selections : List Selection) : ℚ :=
  (calculatedSelections betType calculationMode amount offsetValue selections).foldl
    (fun sum s => sum + s.calculatedStake) 0

/-- Input to `BetfairClient.placeOrders` in `server/betfair.ts`. -/
structure OrderInstructionIn where
  selectionId : Int
  side : BetType
  price : ℚ
  stake : ℚ
  deriving DecidableEq, Repr, Inhabited

/-- The `limitOrder` part of a `PlaceInstruction` built at
`server/betfair.ts` lines 341-351. -/
structure LimitOrderOut where
  selectionId : Int
  side : BetType
  size : ℚ
  price : ℚ
  deriving DecidableEq, Repr, Inhabited

/-- Rounding to cents, `Math.round(x * 100) / 100` (JavaScript Math.round
is floor of `x + 1/2`, which is `round` on `ℚ`). -/
def roundCents (x : ℚ) : ℚ := (round (x * 100) : ℤ) / 100

/-- One `PlaceInstruction` from `placeOrders`: size
`Math.max(2, Math.round(stake * 100) / 100)`, price
`Math.round(price * 100) / 100`. -/
def toPlaceInstruction (inst : OrderInstructionIn) : LimitOrderOut :=
  { selectionId := inst.selectionId
    side := inst.side
    size := jsMax 2 (roundCents inst.stake)
    price := roundCents inst.price }

/-- The `instructions.map` inside `placeOrders`. -/
def placeInstructions (l : List OrderInstructionIn) : List LimitOrderOut :=
  l.map toPlaceInstruction

/-- A `{price, size}` offer from a market book ladder. -/
structure PriceSize where
  price : ℚ
  size : ℚ
  deriving DecidableEq, Repr, Inhabited

/-- A runner from the market catalogue (`RUNNER_DESCRIPTION`). -/
structure RunnerCatalog where
  selectionId : Int
  runnerName : String
  deriving DecidableEq, Repr, Inhabited

/-- A runner entry of the market book; `availableToBack`/`availableToLay`
are the `ex` ladders. -/
structure RunnerBook where
  selectionId : Int
  availableToBack : List PriceSize
  availableToLay : List PriceSize
  deriving DecidableEq, Repr, Inhabited

/-- JavaScript `x || d` on a possibly-missing number whose present value
can be 0: it falls back to the default on `undefined` and on `0`. -/
def jsOrDefault (x : Option ℚ) (d : ℚ) : ℚ :=
  match x with
  | none => d
  | some v => if v = 0 then d else v

/-- One selection of `getCorrectScoreMarket` (`server/betfair.ts` lines
307-323): look the runner up in the book, take the best back/lay offers,
and default a missing (or zero) price to 1000 and a missing size to 0.
The `selected` flag is the `false` the client adds on receipt. -/
def marketSelection (bookRunners : List RunnerBook) (runner : RunnerCatalog) : Selection :=
  let runnerBook := bookRunners.find? (fun rb => rb.selectionId == runner.selectionId)
  let backOffer := runnerBook.bind (fun rb => rb.availableToBack.head?)
  let layOffer := runnerBook.bind (fun rb => rb.availableToLay.head?)
  { selectionId := runner.selectionId
    selectionName := runner.runnerName
    backPrice := jsOrDefault (backOffer.map (fun o => o.price)) 1000
    layPrice := jsOrDefault (layOffer.map (fun o => o.price)) 1000
    backSize := jsOrDefault (backOffer.map (fun o => o.size)) 0
    laySize := jsOrDefault (layOffer.map (fun o => o.size)) 0
    selected := false }

/-- The map over `market.runners` in `getCorrectScoreMarket`. -/
def marketSelections (bookRunners : List RunnerBook)
    (runners : List RunnerCatalog) : List Selection :=
  runners.map (marketSelection bookRunners)

/-- The per-selection stake constraint of `placeBetsSchema` in
`server/routes.ts`: `z.number().min(2, "Stake minimo 2.00")`. -/
def schemaStakeOk (stake : ℚ) : Bool := 2 ≤ stake

/-- The per-selection price constraint of `placeBetsSchema`:
`z.number().positive()`. -/
def schemaPriceOk (price : ℚ) : Bool := 0 < price

/-! Reference formulas stated by the specification, rendered verbatim so
that the code's behaviour can be compared against them. -/

/-- Spec formula (§4.3): `W = Σ w_j` with `w_j = 1 / effectivePrice_j`. -/
def specBackWeightSum (effPrices : List ℚ) : ℚ :=
  (effPrices.map (fun p => 1 / p)).sum

/-- Spec formula (§4.3): `stake_i = S · w_i / W` for effective price `p`
among `effPrices`. -/
def specBackStake (S : ℚ) (effPrices : List ℚ) (p : ℚ) : ℚ :=
  S * (1 / p) / specBackWeightSum effPrices

/-- Spec formula (§4.4): the inverse-liability weight
`v_i = 1 / (effectivePrice_i − 1)`. -/
def specLayWeight (p : ℚ) : ℚ := 1 / (p - 1)

/-- Spec formula (§4.3): net profit per winning selection after
commission, `(S / W − S) · (1 − c)`. -/
def specBackNetProfit (S W c : ℚ) : ℚ := (S / W - S) * (1 - c)

/-- Whether `p` is a multiple of `step` (exactly, as a rational). -/
def isMultipleOf (p step : ℚ) : Bool := (p / step).den == 1

/-- The exchange tick ladder of spec §4.1: each band is
inclusive-exclusive and every band's lower bound is itself a multiple of
the band's increment, so membership is a range check plus divisibility;
1000.00 is the top tick. -/
def onTickLadder (p : ℚ) : Bool :=
  (101/100 ≤ p && p < 2 && isMultipleOf p (1/100)) ||
  (2 ≤ p && p < 3 && isMultipleOf p (2/100)) ||
  (3 ≤ p && p < 4 && isMultipleOf p (5/100)) ||
  (4 ≤ p && p < 6 && isMultipleOf p (1/10)) ||
  (6 ≤ p && p < 10 && isMultipleOf p (2/10)) ||
  (10 ≤ p && p < 20 && isMultipleOf p (5/10)) ||
  (20 ≤ p && p < 30 && isMultipleOf p 1) ||
  (30 ≤ p && p < 50 && isMultipleOf p 2) ||
  (50 ≤ p && p < 100 && isMultipleOf p 5) ||
  (100 ≤ p && p < 1000 && isMultipleOf p 10) ||
  (p == 1000)

/-- The raw (pre-clamp) stake expression shared by every branch of the
stake `match` in `computeOne`: `(amount * (100 / price)) / bookPct`. -/
def rawStake (betType : BetType) (amount offsetValue : ℚ)
    (selections : List Selection) (s : Selection) : ℚ :=
  (amount * (100 / (chosenPrice betType s + offsetValue))) /
    bookPercentage betType selections

/-! Concrete inputs used to instantiate the theorems below. -/

/-- A selected selection with the given back and lay prices. -/
def demoSel (bp lp : ℚ) : Selection :=
  { selectionId := 1
    selectionName := ""
    backPrice := bp
    layPrice := lp
    backSize := 0
    laySize := 0
    selected := true }

/-- Two backed selections at prices 2 and 4. -/
def demoBack24 : List Selection := [demoSel 2 2, demoSel 4 4]

/-- Two laid selections at lay prices 2 and 3. -/
def demoLay23 : List Selection := [demoSel 2 2, demoSel 3 3]

/-- Fifty identical selections at price 10 (the minimum-stake scenario of
spec §8). -/
def demoFifty : List Selection := List.replicate 50 (demoSel 10 10)

/-- Two backed selections at price 4 (payout scenario). -/
def demoPayout : List Selection := [demoSel 4 4, demoSel 4 4]

/-- A single backed selection at price 3 (tick-ladder scenario). -/
def demoTick : List Selection := [demoSel 3 3]

/-- The lay calculation over `demoLay23` with liability mode, amount 100,
offset 0. -/
def demoLayCalc : List CalcSelection :=
  calculatedSelections .lay .liability 100 0 demoLay23

/-- The back calculation over `demoBack24` with stake mode, amount 100,
offset 0. -/
def demoBackCalc : List CalcSelection :=
  calculatedSelections .back .stake 100 0 demoBack24

/-! Helper lemmas about the fold and sum shapes of the definitions. -/

/-- The first argument bounds `jsMax` from below. -/
theorem le_jsMax_left (a b : ℚ) : a ≤ jsMax a b := by
  unfold jsMax
  split <;> simp_all

/-- The function `jsMax` keeps the second argument when it dominates the
first. -/
theorem jsMax_eq_right {a b : ℚ} (h : a ≤ b) : jsMax a b = b := by
  simp [jsMax, h]

/-- A left fold that only adds `f` of each element is the initial value
plus the sum of the mapped list. -/
theorem foldl_add_eq {α : Type} (f : α → ℚ) :
    ∀ (l : List α) (init : ℚ),
      l.foldl (fun a s => a + f s) init = init + (l.map f).sum
  | [], init => by simp
  | x :: xs, init => by
    rw [List.foldl_cons, foldl_add_eq f xs (init + f x)]
    simp [add_assoc]

/-- A sum of positive mapped values over a non-empty list is positive. -/
theorem sum_map_pos {α : Type} (f : α → ℚ) :
    ∀ (l : List α), l ≠ [] → (∀ s ∈ l, 0 < f s) → 0 < (l.map f).sum
  | [], h, _ => absurd rfl h
  | [x], _, h => by simpa using h x (by simp)
  | x :: y :: ys, _, h => by
    have h1 : 0 < f x := h x (by simp)
    have h2 : 0 < ((y :: ys).map f).sum :=
      sum_map_pos f (y :: ys) (by simp) (fun s hs => h s (List.mem_cons_of_mem _ hs))
    simpa using add_pos h1 h2

/-- When anything is selected, `bookPercentage` is `100` times the sum of
the inverse raw chosen-side prices. -/
theorem bookPercentage_eq_sum (bt : BetType) (sels : List Selection)
    (hne : selectedSelections sels ≠ []) :
    bookPercentage bt sels
      = 100 * ((selectedSelections sels).map (fun s => 1 / chosenPrice bt s)).sum := by
  unfold bookPercentage
  rw [if_neg (fun h => hne (List.length_eq_zero.mp h)), foldl_add_eq, zero_add]
  have hfun : (fun s => 100 / chosenPrice bt s)
      = (fun s => 100 * (1 / chosenPrice bt s)) := by
    funext s
    rw [div_eq_mul_one_div]
  rw [hfun, List.sum_map_mul_left]

/-- All four branches of the stake `match` in `computeOne` are the shared
raw-stake expression, so the clamped stake has a uniform closed form. -/
theorem computeOne_stake (bt : BetType) (mode : CalcMode) (amount off B : ℚ)
    (s : Selection) :
    (computeOne bt mode amount off B s).calculatedStake
      = jsMax 2 ((amount * (100 / (chosenPrice bt s + off))) / B) := by
  cases mode <;> cases bt <;> rfl

/-- The function `computeOne` keeps the source selection in `base`. -/
theorem computeOne_base (bt : BetType) (mode : CalcMode) (amount off B : ℚ)
    (s : Selection) : (computeOne bt mode amount off B s).base = s := rfl

/-- The function `computeOne` records the offset-adjusted chosen-side
price. -/
theorem computeOne_effectivePrice (bt : BetType) (mode : CalcMode) (amount off B : ℚ)
    (s : Selection) :
    (computeOne bt mode amount off B s).effectivePrice = chosenPrice bt s + off := rfl

/-- For BACK, `potentialReturn` is the unclamped stake times the
effective price. -/
theorem computeOne_return_back (mode : CalcMode) (amount off B : ℚ) (s : Selection) :
    (computeOne .back mode amount off B s).potentialReturn
      = ((amount * (100 / (s.backPrice + off))) / B) * (s.backPrice + off) := by
  cases mode <;> rfl

/-- For BACK, `potentialLoss` is the requested amount. -/
theorem computeOne_loss_back (mode : CalcMode) (amount off B : ℚ) (s : Selection) :
    (computeOne .back mode amount off B s).potentialLoss = amount := rfl

/-- For LAY, `potentialReturn` is the requested amount. -/
theorem computeOne_return_lay (mode : CalcMode) (amount off B : ℚ) (s : Selection) :
    (computeOne .lay mode amount off B s).potentialReturn = amount := rfl

/-- For LAY, `potentialLoss` is the unclamped stake times the effective
price minus one. -/
theorem computeOne_loss_lay (mode : CalcMode) (amount off B : ℚ) (s : Selection) :
    (computeOne .lay mode amount off B s).potentialLoss
      = ((amount * (100 / (s.layPrice + off))) / B) * ((s.layPrice + off) - 1) := by
  cases mode <;> rfl

/-- Every calculated row comes from a selected selection via `computeOne`
with the shared book percentage, and the selected list is non-empty. -/
theorem mem_calculatedSelections {bt : BetType} {mode : CalcMode} {amount off : ℚ}
    {sels : List Selection} {c : CalcSelection}
    (hc : c ∈ calculatedSelections bt mode amount off sels) :
    ∃ s, s ∈ selectedSelections sels ∧ selectedSelections sels ≠ []
      ∧ c = computeOne bt mode amount off (bookPercentage bt sels) s := by
  unfold calculatedSelections at hc
  split at hc
  · simp at hc
  · rename_i h
    obtain ⟨s, hs, rfl⟩ := List.mem_map.mp hc
    exact ⟨s, hs, fun hnil => h (by simp [hnil]), rfl⟩

/-- Cancelling the factor 100 between the code's raw stake and the spec's
weight formula. -/
theorem raw_eq_specBackStake (S p W : ℚ) :
    (S * (100 / p)) / (100 * W) = S * (1 / p) / W := by
  rw [div_eq_mul_one_div (100 : ℚ) p,
    show S * (100 * (1 / p)) = 100 * (S * (1 / p)) by ring]
  exact mul_div_mul_left _ _ (by norm_num)

/-- The spec's weight sum over the mapped back prices is the sum of the
inverse back prices. -/
theorem specW_eq (sel : List Selection) :
    specBackWeightSum (sel.map (fun t => t.backPrice))
      = (sel.map (fun t => 1 / t.backPrice)).sum := by
  unfold specBackWeightSum
  rw [List.map_map]
  rfl

/-! Claim theorems. -/

/-- C9: for every identical input (selections, total amount, offset, bet
type), the `"stake"` calculation mode and the `"liability"` calculation
mode produce exactly the same calculated selections, for both BACK and
LAY bet types: the two modes are the same function. -/
theorem calc_mode_irrelevant (bt : BetType) (amount offsetValue : ℚ)
    (sels : List Selection) :
    calculatedSelections bt .stake amount offsetValue sels
      = calculatedSelections bt .liability amount offsetValue sels := by
  unfold calculatedSelections
  split
  · rfl
  · congr 1
    funext s
    cases bt <;> rfl

/-- C7 (amended): the calculation performs no price validation and never
rejects: for every input, including inputs containing a selection price
of 1.00, it returns one calculated row per selected selection. -/
theorem calc_never_rejects (bt : BetType) (mode : CalcMode) (amount off : ℚ)
    (sels : List Selection) :
    (calculatedSelections bt mode amount off sels).length
      = (selectedSelections sels).length := by
  unfold calculatedSelections
  split
  · simp_all
  · exact List.length_map _ _

/-- C7 (counterexample): a request with a selection priced exactly 1.00
does not fail with `InvalidPrice`: it produces a complete two-row
allocation whose first stake is 200/3. -/
theorem price_one_flows_through :
    (calculatedSelections .lay .liability 100 0 [demoSel 1 1, demoSel 2 2]).length = 2
    ∧ (calculatedSelections .lay .liability 100 0
        [demoSel 1 1, demoSel 2 2]).headI.calculatedStake = 200/3 := by
  constructor
  · norm_num [calculatedSelections, selectedSelections, demoSel]
  · norm_num [calculatedSelections, selectedSelections, demoSel,
      computeOne, bookPercentage, chosenPrice, jsMax]

/-- C6 (amended): the computation has no maximum-payout check: for every
input it returns a result whose `totalStake` is the sum of the
per-selection stakes, and there are inputs whose result has
`totalStake` plus potential profit exceeding 10000. -/
theorem totalStake_sum_and_no_payout_cap :
    (∀ bt mode amount off sels, totalStake bt mode amount off sels
        = ((calculatedSelections bt mode amount off sels).map
            (fun c => c.calculatedStake)).sum)
    ∧ (∃ bt mode amount off sels c,
        c ∈ calculatedSelections bt mode amount off sels
        ∧ 10000 < totalStake bt mode amount off sels
            + (c.potentialReturn - c.potentialLoss)) := by
  constructor
  · intro bt mode amount off sels
    unfold totalStake
    rw [foldl_add_eq, zero_add]
  · refine ⟨.back, .stake, 8000, 0, demoPayout,
      (calculatedSelections .back .stake 8000 0 demoPayout).headI, ?_, ?_⟩
    · simp [calculatedSelections, selectedSelections, demoPayout, demoSel, List.headI]
    · norm_num [totalStake, calculatedSelections, selectedSelections, demoPayout,
        demoSel, computeOne, bookPercentage, chosenPrice, jsMax]

/-- C6 (counterexample): two selections at price 4 with total amount 8000
yield a successful two-row result with totalStake 8000 and potential
profit 8000, so totalStake plus maximum profit is 16000 > 10000 and no
`ExceedsMaxPayout` error occurs. -/
theorem payout_cap_exceeded_concrete :
    (calculatedSelections .back .stake 8000 0 demoPayout).length = 2
    ∧ totalStake .back .stake 8000 0 demoPayout = 8000
    ∧ (calculatedSelections .back .stake 8000 0 demoPayout).headI.potentialReturn
        - (calculatedSelections .back .stake 8000 0 demoPayout).headI.potentialLoss
      = 8000 := by
  refine ⟨?_, ?_, ?_⟩
  · norm_num [calculatedSelections, selectedSelections, demoPayout, demoSel]
  · norm_num [totalStake, calculatedSelections, selectedSelections, demoPayout,
      demoSel, computeOne, bookPercentage, chosenPrice, jsMax]
  · norm_num [calculatedSelections, selectedSelections, demoPayout, demoSel,
      computeOne, bookPercentage, chosenPrice, jsMax]

/-- C8: every calculated stake and every submitted order size is at least
2.00 (a computed stake below 2 is silently raised to 2), and for some
inputs the sum of the per-selection stakes strictly exceeds the requested
total amount. -/
theorem stake_clamped_to_two :
    (∀ bt mode amount off sels, ∀ c ∈ calculatedSelections bt mode amount off sels,
        2 ≤ c.calculatedStake)
    ∧ (∀ inst : OrderInstructionIn, 2 ≤ (toPlaceInstruction inst).size)
    ∧ (∃ bt mode amount off sels, amount < totalStake bt mode amount off sels) := by
  refine ⟨?_, ?_, ?_⟩
  · intro bt mode amount off sels c hc
    unfold calculatedSelections at hc
    split at hc
    · simp at hc
    · obtain ⟨s, _, rfl⟩ := List.mem_map.mp hc
      exact le_jsMax_left 2 _
  · intro inst
    exact le_jsMax_left 2 _
  · refine ⟨.back, .stake, 2, 0, [demoSel 10 10, demoSel 10 10], ?_⟩
    norm_num [totalStake, calculatedSelections, selectedSelections, demoSel,
      computeOne, bookPercentage, chosenPrice, jsMax]

/-- C8 (witness): the clamp bound instantiated at the concrete back
calculation over `demoBack24`. -/
theorem stake_clamped_to_two_witness :
    2 ≤ demoBackCalc.headI.calculatedStake :=
  stake_clamped_to_two.1 .back .stake 100 0 demoBack24 demoBackCalc.headI (by
    simp [demoBackCalc, calculatedSelections, selectedSelections, demoBack24,
      demoSel, List.headI])

/-- C1 (counterexample): with a non-zero price offset, the allocated
stake differs from `S · (1/p_i) / W` computed over the effective prices:
back prices 2 and 4 with offset 1 (effective prices 3 and 5) and total
100 give a first stake of 400/9, while the spec formula gives 125/2. -/
theorem back_stake_spec_formula_fails :
    (calculatedSelections .back .stake 100 1 demoBack24).headI.calculatedStake
      ≠ specBackStake 100 [3, 5] 3 := by
  norm_num [calculatedSelections, selectedSelections, demoBack24, demoSel,
    computeOne, bookPercentage, chosenPrice, jsMax, specBackStake, specBackWeightSum]

/-- C1 (amended): with zero price offset the all-BACK stake-mode
allocation matches the spec formula up to the minimum-stake clamp: each
row's stake is `max(2, S · (1/p_i) / W)` with `W = Σ 1/p_j` over the
selected back prices, and every row whose formula stake is at least 2 has
the uniform gross return `stake_i · p_i = S / W`. -/
theorem back_stake_spec_formula_amended (sels : List Selection) (S : ℚ)
    (mode : CalcMode)
    (hp : ∀ s ∈ selectedSelections sels, 0 < s.backPrice) :
    (∀ c ∈ calculatedSelections .back mode S 0 sels,
        c.calculatedStake = jsMax 2 (specBackStake S
          ((selectedSelections sels).map (fun t => t.backPrice)) c.base.backPrice))
    ∧ (∀ c ∈ calculatedSelections .back mode S 0 sels,
        2 ≤ specBackStake S ((selectedSelections sels).map (fun t => t.backPrice))
              c.base.backPrice →
        c.calculatedStake * c.effectivePrice
          = S / specBackWeightSum
              ((selectedSelections sels).map (fun t => t.backPrice))) := by
  constructor
  · intro c hc
    obtain ⟨s, hs, hne, rfl⟩ := mem_calculatedSelections hc
    rw [computeOne_stake, computeOne_base, bookPercentage_eq_sum .back sels hne]
    unfold specBackStake
    rw [specW_eq]
    congr 1
    rw [show chosenPrice .back s + 0 = s.backPrice from add_zero _]
    exact raw_eq_specBackStake S s.backPrice _
  · intro c hc hge
    obtain ⟨s, hs, hne, rfl⟩ := mem_calculatedSelections hc
    rw [computeOne_base] at hge
    rw [computeOne_stake, computeOne_effectivePrice,
      bookPercentage_eq_sum .back sels hne]
    simp only [chosenPrice]
    rw [show s.backPrice + 0 = s.backPrice from add_zero _]
    rw [raw_eq_specBackStake S s.backPrice _]
    unfold specBackStake at hge
    rw [specW_eq] at hge
    rw [jsMax_eq_right hge, specW_eq]
    rw [div_mul_eq_mul_div, mul_assoc,
      one_div_mul_cancel (hp s hs).ne', mul_one]

/-- C1 (witness): the amended uniform-return property at back prices 2
and 4, total 100, zero offset: the first row's stake times its effective
price is 400/3. -/
theorem back_stake_spec_formula_amended_witness :
    demoBackCalc.headI.calculatedStake * demoBackCalc.headI.effectivePrice
      = 400/3 := by
  have h := (back_stake_spec_formula_amended demoBack24 100 .stake (by
      simp [selectedSelections, demoBack24, demoSel])).2
    demoBackCalc.headI (by
      simp [demoBackCalc, calculatedSelections, selectedSelections, demoBack24,
        demoSel, List.headI]) (by
      norm_num [demoBackCalc, calculatedSelections, selectedSelections, demoBack24,
        demoSel, computeOne, bookPercentage, chosenPrice, jsMax,
        specBackStake, specBackWeightSum])
  rw [h]
  norm_num [selectedSelections, demoBack24, demoSel, specBackWeightSum]

/-- C2 (counterexample): the all-LAY stakes are not proportional to the
inverse-liability weights `1 / (p_i − 1)`: at lay prices 2 and 3 with
amount 100 the code allocates 60 and 40, but `60 · (1/(3−1)) = 30` while
`40 · (1/(2−1)) = 40`, so the cross-products of stakes against the spec
weights disagree. -/
theorem lay_weight_not_inverse_liability :
    demoLayCalc.headI.calculatedStake
        * specLayWeight ((demoLayCalc.getD 1 default).effectivePrice)
      ≠ (demoLayCalc.getD 1 default).calculatedStake
        * specLayWeight (demoLayCalc.headI.effectivePrice) := by
  norm_num [demoLayCalc, calculatedSelections, selectedSelections, demoLay23, demoSel,
    computeOne, bookPercentage, chosenPrice, jsMax, specLayWeight]

/-- C2 (amended): for all-LAY requests the unclamped stakes are
proportional to the inverse effective price (the same weights as BACK):
`rawStake_i · p_i` is the same for every pair of selected selections.
Each row's stake is the clamp of that raw stake, `potentialReturn` is the
requested amount, `potentialLoss` is `rawStake_i · (p_i − 1)`, and no
guaranteed-profit minimum is computed anywhere in the result. -/
theorem lay_allocation_amended (sels : List Selection) (mode : CalcMode)
    (amount off : ℚ)
    (hp : ∀ s ∈ selectedSelections sels, 0 < s.layPrice + off) :
    (∀ c ∈ calculatedSelections .lay mode amount off sels,
        c.calculatedStake = jsMax 2 (rawStake .lay amount off sels c.base)
        ∧ c.potentialReturn = amount
        ∧ c.potentialLoss
            = rawStake .lay amount off sels c.base * (c.effectivePrice - 1))
    ∧ (∀ s ∈ selectedSelections sels, ∀ t ∈ selectedSelections sels,
        rawStake .lay amount off sels s * (s.layPrice + off)
          = rawStake .lay amount off sels t * (t.layPrice + off)) := by
  have key : ∀ s ∈ selectedSelections sels,
      rawStake .lay amount off sels s * (s.layPrice + off)
        = amount * 100 / bookPercentage .lay sels := by
    intro s hs
    unfold rawStake
    simp only [chosenPrice]
    rw [div_mul_eq_mul_div, mul_assoc, div_mul_cancel₀ _ (hp s hs).ne']
  constructor
  · intro c hc
    obtain ⟨s, hs, hne, rfl⟩ := mem_calculatedSelections hc
    refine ⟨?_, computeOne_return_lay mode amount off _ s, ?_⟩
    · rw [computeOne_stake, computeOne_base]
      rfl
    · rw [computeOne_loss_lay, computeOne_base, computeOne_effectivePrice]
      rfl
  · intro s hs t ht
    rw [key s hs, key t ht]

/-- C2 (witness): the inverse-price proportionality instantiated at lay
prices 2 and 3 with amount 100 and zero offset. -/
theorem lay_allocation_amended_witness :
    rawStake .lay 100 0 demoLay23 (demoSel 2 2) * ((demoSel 2 2).layPrice + 0)
      = rawStake .lay 100 0 demoLay23 (demoSel 3 3)
          * ((demoSel 3 3).layPrice + 0) :=
  (lay_allocation_amended demoLay23 .liability 100 0 (by
      simp [selectedSelections, demoLay23, demoSel])).2
    (demoSel 2 2) (by simp [selectedSelections, demoLay23, demoSel])
    (demoSel 3 3) (by simp [selectedSelections, demoLay23, demoSel])

/-- C3 (counterexample): the reported win outcome applies no commission:
at back prices 2 and 4 with total 100 the code's winning net result is
100/3, while the spec's formula `(S/W − S)·(1 − c)` with the admissible
commission rate `c = 1/2` gives 50/3. -/
theorem commission_not_applied :
    demoBackCalc.headI.potentialReturn - demoBackCalc.headI.potentialLoss
      ≠ specBackNetProfit 100 (specBackWeightSum [2, 4]) (1/2) := by
  norm_num [demoBackCalc, calculatedSelections, selectedSelections, demoBack24,
    demoSel, computeOne, bookPercentage, chosenPrice, jsMax,
    specBackNetProfit, specBackWeightSum]

/-- C3 (amended): for all-BACK requests with zero offset the winning net
result `potentialReturn − potentialLoss` of every row equals `S/W − S`
— the spec's net-profit formula at commission 0; no commission rate
exists in the computation and none is applied. -/
theorem back_profit_no_commission (sels : List Selection) (S : ℚ)
    (mode : CalcMode)
    (hp : ∀ s ∈ selectedSelections sels, 0 < s.backPrice) :
    ∀ c ∈ calculatedSelections .back mode S 0 sels,
      c.potentialReturn - c.potentialLoss
        = specBackNetProfit S
            (specBackWeightSum ((selectedSelections sels).map (fun t => t.backPrice)))
            0 := by
  intro c hc
  obtain ⟨s, hs, hne, rfl⟩ := mem_calculatedSelections hc
  rw [computeOne_return_back, computeOne_loss_back,
    bookPercentage_eq_sum .back sels hne]
  unfold specBackNetProfit
  rw [specW_eq]
  simp only [chosenPrice]
  rw [show s.backPrice + 0 = s.backPrice from add_zero _]
  rw [div_mul_eq_mul_div, mul_assoc, div_mul_cancel₀ _ (hp s hs).ne']
  rw [show S * 100 = 100 * S by ring,
    mul_div_mul_left S _ (show (100:ℚ) ≠ 0 by norm_num)]
  ring

/-- C3 (witness): the commission-free net result at back prices 2 and 4
with total 100: the first row nets `S/W − S` with `W = 3/4`. -/
theorem back_profit_no_commission_witness :
    demoBackCalc.headI.potentialReturn - demoBackCalc.headI.potentialLoss
      = specBackNetProfit 100
          (specBackWeightSum ((selectedSelections demoBack24).map
            (fun t => t.backPrice))) 0 :=
  back_profit_no_commission demoBack24 100 .stake (by
      simp [selectedSelections, demoBack24, demoSel])
    demoBackCalc.headI (by
      simp [demoBackCalc, calculatedSelections, selectedSelections, demoBack24,
        demoSel, List.headI])

/-- C4 (counterexample): effective prices are not snapped to the tick
ladder: a back price of 3.00 with offset 0.02 yields effectivePrice 3.02,
which is not a legal tick (the band [3, 4) steps by 0.05), and the order
instruction built from price 3.02 submits 3.02 unchanged, also off the
ladder. -/
theorem effective_price_off_ladder :
    onTickLadder ((calculatedSelections .back .stake 100 (2/100)
        demoTick).headI.effectivePrice) = false
    ∧ onTickLadder ((toPlaceInstruction
        { selectionId := 1, side := .back, price := 302/100, stake := 10 }).price)
      = false := by
  constructor
  · norm_num [calculatedSelections, selectedSelections, demoTick, demoSel, computeOne,
      bookPercentage, chosenPrice, jsMax, onTickLadder, isMultipleOf]
  · norm_num [toPlaceInstruction, roundCents, round_eq, onTickLadder, isMultipleOf]

/-- C4 (amended): each row's effectivePrice is the chosen-side price plus
the offset with no tick normalization, and the submitted order price is
the input price rounded to 2 decimals (cents), not snapped to the tick
ladder. -/
theorem effective_price_amended (bt : BetType) (mode : CalcMode) (amount off : ℚ)
    (sels : List Selection) :
    (∀ c ∈ calculatedSelections bt mode amount off sels,
        c.effectivePrice = chosenPrice bt c.base + off)
    ∧ (∀ inst : OrderInstructionIn,
        (toPlaceInstruction inst).price = roundCents inst.price) := by
  constructor
  · intro c hc
    obtain ⟨s, _, _, rfl⟩ := mem_calculatedSelections hc
    rw [computeOne_base, computeOne_effectivePrice]
  · intro inst
    rfl

/-- C4 (witness): the un-normalized effective price at the concrete back
calculation over `demoBack24` with zero offset. -/
theorem effective_price_amended_witness :
    demoBackCalc.headI.effectivePrice
      = chosenPrice .back demoBackCalc.headI.base + 0 :=
  (effective_price_amended .back .stake 100 0 demoBack24).1
    demoBackCalc.headI (by
      simp [demoBackCalc, calculatedSelections, selectedSelections, demoBack24,
        demoSel, List.headI])

/-- C5 (counterexample): fifty selections at price 10 sharing total stake
10 allocate a raw stake of 0.2 per selection — far below the minimum —
yet no `BelowMinimumStake` error occurs: the code returns all fifty rows
with every stake clamped to 2 and totalStake 100. -/
theorem below_minimum_no_error :
    rawStake .back 10 0 demoFifty (demoSel 10 10) = 1/5
    ∧ (calculatedSelections .back .stake 10 0 demoFifty).length = 50
    ∧ (calculatedSelections .back .stake 10 0 demoFifty).all
        (fun c => c.calculatedStake == 2) = true
    ∧ totalStake .back .stake 10 0 demoFifty = 100 := by
  refine ⟨?_, ?_, ?_, ?_⟩
  · norm_num [rawStake, bookPercentage, selectedSelections, demoFifty, demoSel,
      chosenPrice, List.replicate, List.filter]
  · norm_num [calculatedSelections, selectedSelections, demoFifty, demoSel]
  · norm_num [calculatedSelections, selectedSelections, demoFifty, demoSel,
      computeOne, bookPercentage, chosenPrice, jsMax, List.replicate, List.filter]
  · norm_num [totalStake, calculatedSelections, selectedSelections, demoFifty,
      demoSel, computeOne, bookPercentage, chosenPrice, jsMax,
      List.replicate, List.filter]

/-- C5 (amended): a per-selection stake below the minimum never fails the
computation: every row's stake is the raw allocation clamped up to 2.00,
and therefore always satisfies the placement schema's minimum-stake
constraint (`z.number().min(2)`). -/
theorem below_minimum_clamped (bt : BetType) (mode : CalcMode) (amount off : ℚ)
    (sels : List Selection) :
    ∀ c ∈ calculatedSelections bt mode amount off sels,
      c.calculatedStake = jsMax 2 (rawStake bt amount off sels c.base)
      ∧ schemaStakeOk c.calculatedStake = true := by
  intro c hc
  obtain ⟨s, _, _, rfl⟩ := mem_calculatedSelections hc
  constructor
  · rw [computeOne_stake, computeOne_base]
    rfl
  · rw [computeOne_stake]
    simp only [schemaStakeOk, decide_eq_true_eq]
    exact le_jsMax_left 2 _

/-- C5 (witness): the clamp-and-schema property at the concrete lay
calculation over `demoLay23`. -/
theorem below_minimum_clamped_witness :
    demoLayCalc.headI.calculatedStake
        = jsMax 2 (rawStake .lay 100 0 demoLay23 demoLayCalc.headI.base)
    ∧ schemaStakeOk demoLayCalc.headI.calculatedStake = true :=
  below_minimum_clamped .lay .liability 100 0 demoLay23
    demoLayCalc.headI (by
      simp [demoLayCalc, calculatedSelections, selectedSelections, demoLay23,
        demoSel, List.headI])

/-- C10: the market query returns a selection for every catalogue runner;
a runner with no available back (resp. lay) offer is not omitted and
produces no error: its missing side's price defaults to 1000 and its size
to 0. -/
theorem market_runner_defaults (bookRunners : List RunnerBook)
    (runners : List RunnerCatalog) :
    (marketSelections bookRunners runners).length = runners.length
    ∧ ∀ r ∈ runners,
        marketSelection bookRunners r ∈ marketSelections bookRunners runners
        ∧ (((bookRunners.find? (fun rb => rb.selectionId == r.selectionId)).bind
              (fun rb => rb.availableToBack.head?)) = none →
            (marketSelection bookRunners r).backPrice = 1000
            ∧ (marketSelection bookRunners r).backSize = 0)
        ∧ (((bookRunners.find? (fun rb => rb.selectionId == r.selectionId)).bind
              (fun rb => rb.availableToLay.head?)) = none →
            (marketSelection bookRunners r).layPrice = 1000
            ∧ (marketSelection bookRunners r).laySize = 0) := by
  refine ⟨List.length_map _ _, ?_⟩
  intro r hr
  refine ⟨List.mem_map_of_mem _ hr, ?_, ?_⟩
  · intro h
    constructor <;> simp [marketSelection, h, jsOrDefault]
  · intro h
    constructor <;> simp [marketSelection, h, jsOrDefault]

/-- C10 (witness): a runner absent from the market book gets back price
1000 and back size 0. -/
theorem market_runner_defaults_witness :
    (marketSelection [] ⟨7, "0 - 0"⟩).backPrice = 1000
    ∧ (marketSelection [] ⟨7, "0 - 0"⟩).backSize = 0 :=
  ((market_runner_defaults [] [⟨7, "0 - 0"⟩]).2 ⟨7, "0 - 0"⟩ (by simp)).2.1 rfl

end Pickfair
